import Mathlib

/-!
Verification of the two auxiliary HTTP servers of this repository:
`docker/mock-hydra-server.py` (the mock Hydra API server on port 3000,
plus its bundled health listener on port 8080) and `docker/health-check.py`
(the standalone health-check proxy).

The Python handlers are shallowly embedded: each `do_GET` / `do_POST` /
`do_PUT` / `do_DELETE` method becomes a pure Lean function from the request
data (and the current in-memory project store) to an HTTP response (and the
next store).  Strings are modelled as Lean `String`s; the few Python string
primitives the handlers use (`split`, `startswith`, `in`, `int()`,
`str.title()`) are modelled character by character on `String.data`.
JSON documents are modelled by an explicit `Json` syntax tree; `json.loads`
is a library function, not repository code, so handlers that call it are
parameterised by an arbitrary parse function `jsonLoads`.
-/

/-- A JSON value, as produced by the handlers via `json.dumps`.
Numbers are integers: every numeric literal in the two servers is an
integer. -/
inductive Json where
  | null : Json
  | bool : Bool → Json
  | num : Int → Json
  | str : String → Json
  | arr : List Json → Json
  | obj : List (String × Json) → Json

/-- First-match lookup in a JSON object's key/value list, modelling Python
dict lookup (the keys of every object built by the handlers are distinct). -/
def lookupKvs : List (String × Json) → String → Option Json
  | [], _ => none
  | (k, v) :: rest, key => if k = key then some v else lookupKvs rest key

/-- Field access on a JSON value: `some` for a present key of an object,
`none` otherwise. -/
def jsonGet (j : Json) (key : String) : Option Json :=
  match j with
  | .obj kvs => lookupKvs kvs key
  | _ => none

/-- An HTTP response as produced by the handlers: status code, optional
`Set-Cookie` header, optional JSON body.  Every response with a body also
carries a `Content-type: application/json` header, which is not modelled
because it is identical on every handler path. -/
structure Response where
  status : Nat
  setCookie : Option String
  body : Option Json

/-- The process-wide `projects_storage` dict: an insertion-ordered map from
project name to project record, modelled as an association list with
distinct keys. -/
abbrev Store := List (String × Json)

/-- Python dict read: `projects_storage[name]` / `name in projects_storage`. -/
def dictLookup : Store → String → Option Json
  | [], _ => none
  | (k, v) :: rest, key => if k = key then some v else dictLookup rest key

/-- Python dict write `projects_storage[name] = v`: overwrite in place if the
key is present, append otherwise (insertion order semantics). -/
def dictInsert : Store → String → Json → Store
  | [], key, v => [(key, v)]
  | (k, w) :: rest, key, v =>
    if k = key then (key, v) :: rest else (k, w) :: dictInsert rest key v

/-- Python dict delete `del projects_storage[name]`. -/
def dictErase : Store → String → Store
  | [], _ => []
  | (k, w) :: rest, key => if k = key then rest else (k, w) :: dictErase rest key

/-- `charsPrefix p l` is true when `p` is a prefix of `l`. -/
def charsPrefix : List Char → List Char → Bool
  | [], _ => true
  | _ :: _, [] => false
  | p :: ps, c :: cs => if p = c then charsPrefix ps cs else false

/-- Python `s.startswith(p)`. -/
def strStartsWith (s p : String) : Bool := charsPrefix p.data s.data

/-- `listContainsSub needle hay`: does `needle` occur as a contiguous run
inside `hay`? -/
def listContainsSub (needle : List Char) : List Char → Bool
  | [] => charsPrefix needle []
  | c :: rest => charsPrefix needle (c :: rest) || listContainsSub needle rest

/-- Python `sub in s` on strings. -/
def strContains (s sub : String) : Bool := listContainsSub sub.data s.data

/-- `splitOnCharAux sep cs` splits `cs` at every occurrence of `sep`,
keeping empty pieces, like Python `s.split(sep)` for a one-character
separator. -/
def splitOnCharAux (sep : Char) : List Char → List (List Char)
  | [] => [[]]
  | c :: rest =>
    let r := splitOnCharAux sep rest
    if c = sep then [] :: r
    else match r with
      | s :: ss => (c :: s) :: ss
      | [] => [[c]]

/-- Python `s.split(sep)` for a one-character separator. -/
def pySplit (s : String) (sep : Char) : List String :=
  (splitOnCharAux sep s.data).map (fun cs => ⟨cs⟩)

/-- Tail of the path after the last slash seen so far; models the composite
expression `path.split("/")[-1]` used by the handlers. -/
def lastSegAux : List Char → List Char → List Char
  | [], acc => acc
  | c :: cs, acc => if c = '/' then lastSegAux cs [] else lastSegAux cs (acc ++ [c])

/-- Python `path.split("/")[-1]`: the suffix of `path` after its final `/`
(the whole string when it has no `/`). -/
def lastSegment (s : String) : String := ⟨lastSegAux s.data []⟩

/-- Python whitespace stripped by `int()` (ASCII subset). -/
def isPyWs (c : Char) : Bool :=
  c = ' ' || c = '\t' || c = '\n' || c = '\r' || c = '\x0b' || c = '\x0c'

/-- Python `s.strip()` on the character list (ASCII whitespace). -/
def pyStrip (l : List Char) : List Char :=
  ((l.dropWhile isPyWs).reverse.dropWhile isPyWs).reverse

/-- Digit run acceptor for Python `int()`: decimal digits with single
underscores allowed between digits. `prevDigit` records whether the previous
character was a digit (so an underscore is legal here). -/
def pyIntCore : List Char → Nat → Bool → Option Nat
  | [], acc, prevDigit => if prevDigit then some acc else none
  | c :: cs, acc, prevDigit =>
    if c.isDigit then pyIntCore cs (acc * 10 + (c.toNat - 48)) true
    else if c = '_' ∧ prevDigit = true then pyIntCore cs acc false
    else none

/-- Python `int(s)`: strip whitespace, optional sign, decimal digits with
underscore grouping; `none` models the `ValueError` the handlers catch. -/
def pyInt (s : String) : Option Int :=
  match pyStrip s.data with
  | '+' :: rest => (pyIntCore rest 0 false).map (fun n => (n : Int))
  | '-' :: rest => (pyIntCore rest 0 false).map (fun n => -(n : Int))
  | cs => (pyIntCore cs 0 false).map (fun n => (n : Int))

/-- Python `s.title()` (ASCII model): uppercase a letter that follows a
non-letter, lowercase a letter that follows a letter. -/
def pyTitleAux : List Char → Bool → List Char
  | [], _ => []
  | c :: cs, prevCased =>
    if c.isAlpha then
      (if prevCased then c.toLower else c.toUpper) :: pyTitleAux cs true
    else c :: pyTitleAux cs false

/-- Python `s.title()` (ASCII model). -/
def pyTitle (s : String) : String := ⟨pyTitleAux s.data false⟩

/-- `{"error": m}`. -/
def jsonErr (m : String) : Json := .obj [("error", .str m)]

/-- The fixed successful build record served for id 123456. -/
def build123456 : Json :=
  .obj [("id", .num 123456), ("nixname", .str "hello-2.12.1"),
        ("finished", .bool true), ("buildstatus", .num 0),
        ("job", .str "hello"), ("project", .str "nixpkgs"), ("jobset", .str "trunk")]

/-- The fixed in-progress build record served for id 123459. -/
def build123459 : Json :=
  .obj [("id", .num 123459), ("nixname", .str "hello-in-progress"),
        ("finished", .bool false), ("buildstatus", .null),
        ("job", .str "hello"), ("project", .str "nixpkgs"), ("jobset", .str "trunk")]

/-- The fixed failed build record served for id 123460. -/
def build123460 : Json :=
  .obj [("id", .num 123460), ("nixname", .str "hello-failed"),
        ("finished", .bool true), ("buildstatus", .num 1),
        ("job", .str "hello"), ("project", .str "nixpkgs"), ("jobset", .str "trunk")]

/-- The fixed two-element constituents array. -/
def constituentsArr : Json :=
  .arr [.obj [("id", .num 123457), ("nixname", .str "dependency-1")],
        .obj [("id", .num 123458), ("nixname", .str "dependency-2")]]

/-- The fixed jobset record. -/
def jobsetRecord : Json :=
  .obj [("name", .str "trunk"), ("project", .str "nixpkgs"), ("enabled", .num 1)]

/-- The fixed search result. -/
def searchResults : Json :=
  .obj [("builds", .arr [.obj [("id", .num 123456), ("nixname", .str "hello-2.12.1"),
                               ("job", .str "hello"), ("project", .str "nixpkgs"),
                               ("jobset", .str "trunk")]]),
        ("projects", .arr [.obj [("name", .str "nixpkgs"),
                                 ("displayname", .str "Nixpkgs"),
                                 ("enabled", .bool true)]])]

/-- `404 {"error": "not found"}`. -/
def respNotFound : Response := ⟨404, none, some (jsonErr "not found")⟩

/-- `400 {"error": "invalid build id"}`. -/
def respInvalidBuildId : Response := ⟨400, none, some (jsonErr "invalid build id")⟩

/-- The seed contents of `projects_storage`. -/
def seedStore : Store :=
  [("nixpkgs", .obj [("name", .str "nixpkgs"), ("displayname", .str "Nixpkgs"),
                     ("enabled", .bool true)]),
   ("hydra", .obj [("name", .str "hydra"), ("displayname", .str "Hydra"),
                   ("enabled", .bool true)])]

/-- `MockHydraHandler.do_GET`: the routing chain of the mock API server,
branch for branch in source order.  The special source case for the project
name `"definitely-does-not-exist"` sends the same 404 body as the generic
missing-project case and is folded into it. -/
def doGET (store : Store) (path : String) : Response :=
  if path = "/" ∧ strContains path "api" = false then
    ⟨200, none, some (.arr (store.map Prod.snd))⟩
  else if strStartsWith path "/api/v1/projects" = true then
    ⟨200, none, some (.arr (store.map Prod.snd))⟩
  else if strStartsWith path "/project/" = true then
    match dictLookup store (lastSegment path) with
    | some project => ⟨200, none, some project⟩
    | none => respNotFound
  else if strStartsWith path "/api/jobsets" = true then
    ⟨200, none, some (.arr [jobsetRecord])⟩
  else if strStartsWith path "/jobset/" = true then
    let parts := pySplit path '/'
    if 4 ≤ parts.length ∧ parts.getD 2 "" = "nixpkgs" ∧ parts.getD 3 "" = "trunk" then
      ⟨200, none, some jobsetRecord⟩
    else respNotFound
  else if strStartsWith path "/build/" = true then
    match pyInt (lastSegment path) with
    | some n =>
      if n = 123456 then ⟨200, none, some build123456⟩
      else if n = 123459 then ⟨200, none, some build123459⟩
      else if n = 123460 then ⟨200, none, some build123460⟩
      else respNotFound
    | none => respInvalidBuildId
  else if strContains path "/constituents" = true then
    let parts := pySplit path '/'
    if 3 ≤ parts.length ∧ parts.getD 1 "" = "build" then
      match pyInt (parts.getD 2 "") with
      | some n =>
        if n = 123456 ∨ n = 123459 ∨ n = 123460 then ⟨200, none, some constituentsArr⟩
        else respNotFound
      | none => respInvalidBuildId
    else respNotFound
  else if strStartsWith path "/api/search" = true ∨ strStartsWith path "/search" = true then
    ⟨200, none, some searchResults⟩
  else
    ⟨200, none, some (.obj [("status", .str "ok")])⟩

/-- Python type name of a JSON value, used in the `AttributeError` message
raised by calling `.get` on a non-dict `json.loads` result. -/
def pyTypeName : Json → String
  | .null => "NoneType"
  | .bool _ => "bool"
  | .num _ => "int"
  | .str _ => "str"
  | .arr _ => "list"
  | .obj _ => "dict"

/-- The `str(e)` of the `AttributeError` raised by `project_data.get` /
`data.get` when the parsed JSON is not a dict (modulo exact punctuation of
the CPython message, which no handler inspects). -/
def attrErrMsg (j : Json) : String :=
  pyTypeName j ++ " object has no attribute get"

/-- One pass of the form-data loop in the `/login` branch: a parameter
starting with `username=` (resp. `password=`) overwrites the username
(resp. password) with `param.split("=")[1]`. -/
def formStep (acc : Option Json × Option Json) (param : String) : Option Json × Option Json :=
  if strStartsWith param "username=" = true then
    (some (.str ((pySplit param '=').getD 1 "")), acc.2)
  else if strStartsWith param "password=" = true then
    (acc.1, some (.str ((pySplit param '=').getD 1 "")))
  else acc

/-- Credential extraction of the `/login` branch on a non-empty body: the
form-data path when the byte string `username=` occurs in the body, else
`json.loads` followed by `data.get("username")` / `data.get("password")`.
`Except.error` models an exception escaping the parse (a `json.loads`
failure, or `.get` on a non-dict result). -/
def parseCreds (jsonLoads : String → Except String Json) (body : String) :
    Except String (Option Json × Option Json) :=
  if strContains body "username=" = true then
    .ok ((pySplit body '&').foldl formStep (none, none))
  else
    match jsonLoads body with
    | .error e => .error e
    | .ok (.obj kvs) => .ok (lookupKvs kvs "username", lookupKvs kvs "password")
    | .ok j => .error (attrErrMsg j)

/-- The fixed user record returned on successful login. -/
def adminUser : Json :=
  .obj [("username", .str "admin"), ("fullname", .str "Admin"),
        ("emailaddress", .str "admin@example.com"),
        ("roles", .arr [.str "admin"])]

/-- `200` + user record + session cookie on successful login. -/
def respLoginSuccess : Response :=
  ⟨200, some "hydra_session=mock_session_token; Path=/; HttpOnly", some adminUser⟩

/-- `401 {"error": "unauthorized"}`. -/
def respUnauthorized : Response := ⟨401, none, some (jsonErr "unauthorized")⟩

/-- `400 {"error": "missing credentials"}`. -/
def respMissingCreds : Response := ⟨400, none, some (jsonErr "missing credentials")⟩

/-- Python `x == 'admin'` on a parsed credential value: true exactly for the
string `admin` (any other type or value compares unequal, `None` included). -/
def isAdminCred : Option Json → Bool
  | some (.str s) => s = "admin"
  | _ => false

/-- The `/login` branch of `MockHydraHandler.do_POST`: empty body → 400;
parse exception → 500 with the exception text; parsed credentials
`admin`/`admin` → 200 with cookie; anything else → 401. -/
def loginResponse (jsonLoads : String → Except String Json) (body : String) : Response :=
  if body = "" then respMissingCreds
  else
    match parseCreds jsonLoads body with
    | .error e => ⟨500, none, some (jsonErr e)⟩
    | .ok (u, p) =>
      if isAdminCred u && isAdminCred p then respLoginSuccess
      else respUnauthorized

/-- The default project record used when the project POST body is missing or
unparseable. -/
def defaultProjectData (projectName : String) : Json :=
  .obj [("name", .str projectName), ("displayname", .str (pyTitle projectName)),
        ("enabled", .bool true)]

/-- The record the `/project/` branch of `do_POST` stores, or the
`AttributeError` text when `project_data.get` is called on a non-dict.
The branch re-reads `self.rfile`, but the request body was already fully
consumed by the read at the top of `do_POST`, so this second
`read(content_length)` yields the empty byte string whenever
`content_length > 0`; only for `content_length == 0` does the branch
substitute the literal byte string of an empty JSON object. -/
def projectPostStored (jsonLoads : String → Except String Json)
    (projectName body : String) : Except String Json :=
  let postData : String := if body = "" then "\x7b\x7d" else ""
  let projectData : Json :=
    if postData = "" then defaultProjectData projectName
    else
      match jsonLoads postData with
      | .ok j => j
      | .error _ => defaultProjectData projectName
  match projectData with
  | .obj kvs =>
    .ok (.obj [("name", .str projectName),
               ("displayname", (lookupKvs kvs "displayname").getD (.str (pyTitle projectName))),
               ("enabled", (lookupKvs kvs "enabled").getD (.bool true))])
  | j => .error (attrErrMsg j)

/-- `MockHydraHandler.do_POST`. -/
def doPOST (jsonLoads : String → Except String Json) (store : Store)
    (path body : String) : Response × Store :=
  if path = "/login" then
    (loginResponse jsonLoads body, store)
  else if strStartsWith path "/project/" = true then
    let projectName := lastSegment path
    match projectPostStored jsonLoads projectName body with
    | .ok stored => (⟨200, none, some stored⟩, dictInsert store projectName stored)
    | .error e => (⟨500, none, some (jsonErr e)⟩, store)
  else
    (⟨200, none, some (.obj [("status", .str "created")])⟩, store)

/-- `MockHydraHandler.do_PUT`: a fixed 200 on every path, no mutation. -/
def doPUT (store : Store) (_path _body : String) : Response × Store :=
  (⟨200, none, some (.obj [("status", .str "updated")])⟩, store)

/-- `200 {"status": "deleted"}`. -/
def respDeleted : Response := ⟨200, none, some (.obj [("status", .str "deleted")])⟩

/-- `MockHydraHandler.do_DELETE`. -/
def doDELETE (store : Store) (path : String) : Response × Store :=
  if strStartsWith path "/project/" = true then
    let projectName := lastSegment path
    if (dictLookup store projectName).isSome = true then
      (respDeleted, dictErase store projectName)
    else (respNotFound, store)
  else (respDeleted, store)

/-- An HTTP method understood by the mock server. -/
inductive Method where
  | get : Method
  | post : Method
  | put : Method
  | delete : Method

/-- A request to the mock API server. -/
structure Request where
  method : Method
  path : String
  body : String

/-- Dispatch of one request to the handler for its method, returning the
response and the next state of `projects_storage`. -/
def applyRequest (jsonLoads : String → Except String Json) (store : Store)
    (r : Request) : Response × Store :=
  match r.method with
  | .get => (doGET store r.path, store)
  | .post => doPOST jsonLoads store r.path r.body
  | .put => doPUT store r.path r.body
  | .delete => doDELETE store r.path

/-- The store after one request. -/
def stepStore (jsonLoads : String → Except String Json) (store : Store)
    (r : Request) : Store :=
  (applyRequest jsonLoads store r).2

/-- The body of the bundled health listener of `mock-hydra-server.py`. -/
def mockHealthBody : Json :=
  .obj [("status", .str "healthy"), ("hydra", .str "running")]

/-- `HealthHandler.do_GET` of `mock-hydra-server.py` (port 8080 listener
started on the background thread): a fixed 200 on `/health`, a bodyless 404
elsewhere; it takes no probe outcome because it performs no outbound
request. -/
def mockHealthDoGET (path : String) : Response :=
  if path = "/health" then ⟨200, none, some mockHealthBody⟩
  else ⟨404, none, none⟩

/-- Outcome of the outbound probe `urlopen("http://localhost:3000/",
timeout=5)` issued by `health-check.py`: a returned status code, or an
exception with its `str(e)` text. -/
inductive ProbeOutcome where
  | status : Nat → ProbeOutcome
  | exn : String → ProbeOutcome

/-- `{"status": "healthy", "hydra": "running", "port": 3000}`. -/
def healthyBody : Json :=
  .obj [("status", .str "healthy"), ("hydra", .str "running"), ("port", .num 3000)]

/-- `{"status": "unhealthy", "error": m}`. -/
def unhealthyBody (m : String) : Json :=
  .obj [("status", .str "unhealthy"), ("error", .str m)]

/-- `HealthHandler.do_GET` of `health-check.py`: on `/health`, reflect the
probe outcome (status 200 → healthy; any other status raises
`Exception("Hydra not responding")`, and that exception like every other is
caught and reported as 503 unhealthy); on any other path, a bodyless 404. -/
def healthCheckDoGET (probe : ProbeOutcome) (path : String) : Response :=
  if path = "/health" then
    match probe with
    | .status n =>
      if n = 200 then ⟨200, none, some healthyBody⟩
      else ⟨503, none, some (unhealthyBody "Hydra not responding")⟩
    | .exn m => ⟨503, none, some (unhealthyBody m)⟩
  else ⟨404, none, none⟩

/-! ### Helper lemmas about the string and dictionary primitives -/

theorem lastSegAux_no_slash : ∀ (cs acc : List Char),
    listContainsSub ['/'] cs = false → lastSegAux cs acc = acc ++ cs
  | [], acc, _ => by simp [lastSegAux]
  | c :: cs, acc, h => by
    have h' : charsPrefix ['/'] (c :: cs) = false ∧ listContainsSub ['/'] cs = false := by
      simpa [listContainsSub] using h
    have hc : c ≠ '/' := by
      intro he
      rw [he] at h'
      simp [charsPrefix] at h'
    show (if c = '/' then lastSegAux cs [] else lastSegAux cs (acc ++ [c])) = acc ++ c :: cs
    rw [if_neg hc, lastSegAux_no_slash cs (acc ++ [c]) h'.2]
    simp

theorem lastSegment_project (id : String) (h : strContains id "/" = false) :
    lastSegment ("/project/" ++ id) = id := by
  have h2 : lastSegment ("/project/" ++ id) = ⟨lastSegAux id.data []⟩ := rfl
  rw [h2, lastSegAux_no_slash id.data [] h]
  simp

theorem lastSegment_build (id : String) (h : strContains id "/" = false) :
    lastSegment ("/build/" ++ id) = id := by
  have h2 : lastSegment ("/build/" ++ id) = ⟨lastSegAux id.data []⟩ := rfl
  rw [h2, lastSegAux_no_slash id.data [] h]
  simp

theorem project_path_ne_root (rest : String) : ("/project/" ++ rest) ≠ "/" := by
  intro h
  have h2 : ('/' :: 'p' :: 'r' :: 'o' :: 'j' :: 'e' :: 'c' :: 't' :: '/' :: rest.data) = ['/'] :=
    congrArg String.data h
  simp at h2

theorem build_path_ne_root (rest : String) : ("/build/" ++ rest) ≠ "/" := by
  intro h
  have h2 : ('/' :: 'b' :: 'u' :: 'i' :: 'l' :: 'd' :: '/' :: rest.data) = ['/'] :=
    congrArg String.data h
  simp at h2

theorem jobset_path_ne_root (rest : String) : ("/jobset/" ++ rest) ≠ "/" := by
  intro h
  have h2 : ('/' :: 'j' :: 'o' :: 'b' :: 's' :: 'e' :: 't' :: '/' :: rest.data) = ['/'] :=
    congrArg String.data h
  simp at h2

theorem project_path_ne_login (rest : String) : ("/project/" ++ rest) ≠ "/login" := by
  intro h
  have h2 : ('/' :: 'p' :: 'r' :: 'o' :: 'j' :: 'e' :: 'c' :: 't' :: '/' :: rest.data) =
      "/login".data := congrArg String.data h
  simp at h2

theorem dictLookup_insert_self : ∀ (s : Store) (k : String) (v : Json),
    dictLookup (dictInsert s k v) k = some v
  | [], k, v => by
    show (if k = k then some v else dictLookup [] k) = some v
    rw [if_pos rfl]
  | (k', w) :: rest, k, v => by
    by_cases h : k' = k
    · rw [show dictInsert ((k', w) :: rest) k v = (k, v) :: rest from by
        show (if k' = k then (k, v) :: rest else (k', w) :: dictInsert rest k v) = _
        rw [if_pos h]]
      show (if k = k then some v else dictLookup rest k) = some v
      rw [if_pos rfl]
    · rw [show dictInsert ((k', w) :: rest) k v = (k', w) :: dictInsert rest k v from by
        show (if k' = k then (k, v) :: rest else (k', w) :: dictInsert rest k v) = _
        rw [if_neg h]]
      show (if k' = k then some w else dictLookup (dictInsert rest k v) k) = some v
      rw [if_neg h]
      exact dictLookup_insert_self rest k v

theorem dictLookup_insert_ne : ∀ (s : Store) (k k2 : String) (v : Json), k2 ≠ k →
    dictLookup (dictInsert s k v) k2 = dictLookup s k2
  | [], k, k2, v, h => by
    show (if k = k2 then some v else dictLookup [] k2) = none
    rw [if_neg (fun he => h he.symm)]
    rfl
  | (k', w) :: rest, k, k2, v, h => by
    by_cases hk : k' = k
    · subst hk
      rw [show dictInsert ((k', w) :: rest) k' v = (k', v) :: rest from by
        show (if k' = k' then (k', v) :: rest else (k', w) :: dictInsert rest k' v) = _
        rw [if_pos rfl]]
      show (if k' = k2 then some v else dictLookup rest k2) =
        (if k' = k2 then some w else dictLookup rest k2)
      rw [if_neg (fun he => h he.symm), if_neg (fun he => h he.symm)]
    · rw [show dictInsert ((k', w) :: rest) k v = (k', w) :: dictInsert rest k v from by
        show (if k' = k then (k, v) :: rest else (k', w) :: dictInsert rest k v) = _
        rw [if_neg hk]]
      show (if k' = k2 then some w else dictLookup (dictInsert rest k v) k2) =
        (if k' = k2 then some w else dictLookup rest k2)
      by_cases h2 : k' = k2
      · rw [if_pos h2, if_pos h2]
      · rw [if_neg h2, if_neg h2]
        exact dictLookup_insert_ne rest k k2 v h

theorem dictLookup_erase_ne : ∀ (s : Store) (k k2 : String), k2 ≠ k →
    dictLookup (dictErase s k) k2 = dictLookup s k2
  | [], k, k2, h => rfl
  | (k', w) :: rest, k, k2, h => by
    by_cases hk : k' = k
    · subst hk
      rw [show dictErase ((k', w) :: rest) k' = rest from by
        show (if k' = k' then rest else (k', w) :: dictErase rest k') = _
        rw [if_pos rfl]]
      show dictLookup rest k2 = (if k' = k2 then some w else dictLookup rest k2)
      rw [if_neg (fun he => h he.symm)]
    · rw [show dictErase ((k', w) :: rest) k = (k', w) :: dictErase rest k from by
        show (if k' = k then rest else (k', w) :: dictErase rest k) = _
        rw [if_neg hk]]
      show (if k' = k2 then some w else dictLookup (dictErase rest k) k2) =
        (if k' = k2 then some w else dictLookup rest k2)
      by_cases h2 : k' = k2
      · rw [if_pos h2, if_pos h2]
      · rw [if_neg h2, if_neg h2]
        exact dictLookup_erase_ne rest k k2 h

theorem dictLookup_not_mem : ∀ (s : Store) (k : String), k ∉ s.map Prod.fst →
    dictLookup s k = none
  | [], k, _ => rfl
  | (k', w) :: rest, k, h => by
    simp only [List.map_cons, List.mem_cons] at h
    push_neg at h
    show (if k' = k then some w else dictLookup rest k) = none
    rw [if_neg (fun he => h.1 he.symm)]
    exact dictLookup_not_mem rest k h.2

theorem dictLookup_erase_self : ∀ (s : Store) (k : String),
    (s.map Prod.fst).Nodup → dictLookup (dictErase s k) k = none
  | [], k, _ => rfl
  | (k', w) :: rest, k, h => by
    simp only [List.map_cons, List.nodup_cons] at h
    by_cases hk : k' = k
    · subst hk
      rw [show dictErase ((k', w) :: rest) k' = rest from by
        show (if k' = k' then rest else (k', w) :: dictErase rest k') = _
        rw [if_pos rfl]]
      exact dictLookup_not_mem rest k' h.1
    · rw [show dictErase ((k', w) :: rest) k = (k', w) :: dictErase rest k from by
        show (if k' = k then rest else (k', w) :: dictErase rest k) = _
        rw [if_neg hk]]
      show (if k' = k then some w else dictLookup (dictErase rest k) k) = none
      rw [if_neg hk]
      exact dictLookup_erase_self rest k h.2

/-! ### Claim theorems -/

/-- C1 (code bug witness): for a GET whose path has the form
`/build/{id}/constituents`, the mock server does NOT serve the constituents
array: the `startswith("/build/")` branch precedes the `"/constituents" in
path` branch, so the last path segment `constituents` is fed to `int()` and
every such request, the three known build ids included, is answered
`400 {"error": "invalid build id"}`, contradicting the handler's own
stated purpose for that route. -/
theorem constituents_shadowed_by_build_branch :
    doGET seedStore "/build/123456/constituents" = respInvalidBuildId ∧
    doGET seedStore "/build/123459/constituents" = respInvalidBuildId ∧
    doGET seedStore "/build/123460/constituents" = respInvalidBuildId :=
  ⟨rfl, rfl, rfl⟩

/-- C2: `GET /build/{id}` (for a path-segment id, i.e. one without `/`)
parses the id with `int()`: failure → 400 with `{"error":"invalid build
id"}`; 123456 → 200 with the finished/success record; 123459 → 200 with the
unfinished record (null buildstatus); 123460 → 200 with the finished/failed
record; any other integer → 404. -/
theorem getBuild_spec (store : Store) (id : String) (h : strContains id "/" = false) :
    (pyInt id = none → doGET store ("/build/" ++ id) = respInvalidBuildId) ∧
    (pyInt id = some 123456 → doGET store ("/build/" ++ id) = ⟨200, none, some build123456⟩) ∧
    (pyInt id = some 123459 → doGET store ("/build/" ++ id) = ⟨200, none, some build123459⟩) ∧
    (pyInt id = some 123460 → doGET store ("/build/" ++ id) = ⟨200, none, some build123460⟩) ∧
    (∀ n : Int, pyInt id = some n → n ≠ 123456 → n ≠ 123459 → n ≠ 123460 →
      doGET store ("/build/" ++ id) = respNotFound) := by
  have hred : doGET store ("/build/" ++ id) =
      (match pyInt (lastSegment ("/build/" ++ id)) with
       | some n =>
         if n = 123456 then ⟨200, none, some build123456⟩
         else if n = 123459 then ⟨200, none, some build123459⟩
         else if n = 123460 then ⟨200, none, some build123460⟩
         else respNotFound
       | none => respInvalidBuildId) := rfl
  rw [lastSegment_build id h] at hred
  refine ⟨?_, ?_, ?_, ?_, ?_⟩
  · intro hp
    rw [hred, hp]
  · intro hp
    rw [hred, hp]
    rfl
  · intro hp
    rw [hred, hp]
    rfl
  · intro hp
    rw [hred, hp]
    rfl
  · intro n hp h1 h2 h3
    rw [hred, hp]
    show (if n = 123456 then (⟨200, none, some build123456⟩ : Response)
      else if n = 123459 then ⟨200, none, some build123459⟩
      else if n = 123460 then ⟨200, none, some build123460⟩
      else respNotFound) = respNotFound
    rw [if_neg h1, if_neg h2, if_neg h3]

/-- Witness for C2 at concrete ids: a known id, an unknown id, and an
unparseable id. -/
theorem getBuild_spec_witness :
    doGET seedStore ("/build/" ++ "123456") = ⟨200, none, some build123456⟩ ∧
    doGET seedStore ("/build/" ++ "99") = respNotFound ∧
    doGET seedStore ("/build/" ++ "abc") = respInvalidBuildId :=
  ⟨(getBuild_spec seedStore "123456" (by decide)).2.1 (by decide),
   (getBuild_spec seedStore "99" (by decide)).2.2.2.2 99 (by decide) (by decide)
     (by decide) (by decide),
   (getBuild_spec seedStore "abc" (by decide)).1 (by decide)⟩

/-- C7 (counterexample): `/jobset/nixpkgs/trunk/extra` starts with
`/jobset/`, is not `/jobset/nixpkgs/trunk`, and yet is answered 200 with the
fixed jobset record rather than the 404 the claim requires for every other
jobset path: the handler only inspects slash-separated segments 2 and 3. -/
theorem getJobset_counterexample :
    strStartsWith "/jobset/nixpkgs/trunk/extra" "/jobset/" = true ∧
    "/jobset/nixpkgs/trunk/extra" ≠ "/jobset/nixpkgs/trunk" ∧
    doGET seedStore "/jobset/nixpkgs/trunk/extra" = ⟨200, none, some jobsetRecord⟩ ∧
    (doGET seedStore "/jobset/nixpkgs/trunk/extra").status ≠ 404 :=
  ⟨rfl, by decide, rfl, by decide⟩

/-- C7 (amended): `GET /jobset/nixpkgs/trunk` returns 200 with the fixed
jobset record; a GET whose path starts with `/jobset/` returns 200 with that
record exactly when its slash-separated segments at indices 2 and 3 are
`nixpkgs` and `trunk` (so `/jobset/nixpkgs/trunk/<anything>` also gets 200),
and 404 with `{"error":"not found"}` otherwise. -/
theorem getJobset_amended (store : Store) (rest : String) :
    doGET store "/jobset/nixpkgs/trunk" = ⟨200, none, some jobsetRecord⟩ ∧
    (4 ≤ (pySplit ("/jobset/" ++ rest) '/').length ∧
        (pySplit ("/jobset/" ++ rest) '/').getD 2 "" = "nixpkgs" ∧
        (pySplit ("/jobset/" ++ rest) '/').getD 3 "" = "trunk" →
      doGET store ("/jobset/" ++ rest) = ⟨200, none, some jobsetRecord⟩) ∧
    (¬(4 ≤ (pySplit ("/jobset/" ++ rest) '/').length ∧
        (pySplit ("/jobset/" ++ rest) '/').getD 2 "" = "nixpkgs" ∧
        (pySplit ("/jobset/" ++ rest) '/').getD 3 "" = "trunk") →
      doGET store ("/jobset/" ++ rest) = respNotFound) := by
  have hred : doGET store ("/jobset/" ++ rest) =
      (if 4 ≤ (pySplit ("/jobset/" ++ rest) '/').length ∧
          (pySplit ("/jobset/" ++ rest) '/').getD 2 "" = "nixpkgs" ∧
          (pySplit ("/jobset/" ++ rest) '/').getD 3 "" = "trunk" then
        ⟨200, none, some jobsetRecord⟩
       else respNotFound) := rfl
  exact ⟨rfl, fun h => by rw [hred, if_pos h], fun h => by rw [hred, if_neg h]⟩

/-- Witness for C7's amended statement at concrete jobset paths. -/
theorem getJobset_amended_witness :
    doGET seedStore ("/jobset/" ++ "nixpkgs/trunk/extra") = ⟨200, none, some jobsetRecord⟩ ∧
    doGET seedStore ("/jobset/" ++ "nixpkgs/other") = respNotFound :=
  ⟨(getJobset_amended seedStore "nixpkgs/trunk/extra").2.1 (by decide),
   (getJobset_amended seedStore "nixpkgs/other").2.2 (by decide)⟩

/-- C8: the health listener bundled inside `mock-hydra-server.py` answers
every `GET /health` with an unconditional fixed 200 whose body has no
`port` field; every other path gets a bodyless 404; no input ever produces
a 503.  The embedded handler takes no probe outcome at all because the
source issues no outbound request. -/
theorem mockHealth_spec (path : String) :
    (path = "/health" → mockHealthDoGET path = ⟨200, none, some mockHealthBody⟩) ∧
    (path ≠ "/health" → mockHealthDoGET path = ⟨404, none, none⟩) ∧
    (mockHealthDoGET path).status ≠ 503 ∧
    jsonGet mockHealthBody "port" = none := by
  refine ⟨?_, ?_, ?_, rfl⟩
  · intro h
    simp only [mockHealthDoGET, if_pos h]
  · intro h
    simp only [mockHealthDoGET, if_neg h]
  · by_cases h : path = "/health"
    · simp only [mockHealthDoGET, if_pos h]
      decide
    · simp only [mockHealthDoGET, if_neg h]
      decide

/-- Witness for C8 at the health path. -/
theorem mockHealth_spec_witness :
    mockHealthDoGET "/health" = ⟨200, none, some mockHealthBody⟩ :=
  (mockHealth_spec "/health").1 rfl

/-- C4: the standalone health-check server answers `GET /health` by
reflecting the probe of the mock server's root: probe status 200 → 200
healthy (with the port field); probe status other than 200 → 503 unhealthy
with the text of the `Hydra not responding` exception the handler raises
and catches; probe exception → 503 unhealthy with the exception text; any
other path → bodyless 404. -/
theorem healthCheck_spec (probe : ProbeOutcome) (path : String) :
    (path = "/health" → probe = .status 200 →
      healthCheckDoGET probe path = ⟨200, none, some healthyBody⟩) ∧
    (∀ n, path = "/health" → probe = .status n → n ≠ 200 →
      healthCheckDoGET probe path = ⟨503, none, some (unhealthyBody "Hydra not responding")⟩) ∧
    (∀ m, path = "/health" → probe = .exn m →
      healthCheckDoGET probe path = ⟨503, none, some (unhealthyBody m)⟩) ∧
    (path ≠ "/health" → healthCheckDoGET probe path = ⟨404, none, none⟩) := by
  refine ⟨?_, ?_, ?_, ?_⟩
  · intro hp hpr
    subst hp
    subst hpr
    rfl
  · intro n hp hpr hn
    subst hp
    subst hpr
    show (if ("/health" : String) = "/health" then
        (if n = 200 then (⟨200, none, some healthyBody⟩ : Response)
         else ⟨503, none, some (unhealthyBody "Hydra not responding")⟩)
      else ⟨404, none, none⟩) = ⟨503, none, some (unhealthyBody "Hydra not responding")⟩
    rw [if_pos rfl, if_neg hn]
  · intro m hp hpr
    subst hp
    subst hpr
    rfl
  · intro hp
    simp only [healthCheckDoGET, if_neg hp]

/-- Witness for C4 at concrete probe outcomes. -/
theorem healthCheck_spec_witness :
    healthCheckDoGET (.status 200) "/health" = ⟨200, none, some healthyBody⟩ ∧
    healthCheckDoGET (.status 500) "/health" =
      ⟨503, none, some (unhealthyBody "Hydra not responding")⟩ ∧
    healthCheckDoGET (.exn "timed out") "/health" = ⟨503, none, some (unhealthyBody "timed out")⟩ ∧
    healthCheckDoGET (.status 200) "/other" = ⟨404, none, none⟩ :=
  ⟨(healthCheck_spec (.status 200) "/health").1 rfl rfl,
   (healthCheck_spec (.status 500) "/health").2.1 500 rfl rfl (by decide),
   (healthCheck_spec (.exn "timed out") "/health").2.2.1 "timed out" rfl rfl,
   (healthCheck_spec (.status 200) "/other").2.2.2 (by decide)⟩


/-- Bridge between the embedded Python comparison `x == 'admin'` and the
equational form used in the claim statements. -/
theorem isAdminCred_iff (u : Option Json) :
    isAdminCred u = true ↔ u = some (.str "admin") := by
  cases u with
  | none => simp [isAdminCred]
  | some j => cases j <;> simp [isAdminCred]


/-- C3: `POST /login` dispatches to the login branch without touching the
store; an empty body gets 400 `{"error":"missing credentials"}`; a parse
exception gets 500; parsed credentials equal to `admin`/`admin` get the
fixed 200-with-cookie response, any other parsed credentials get 401; and
(for a non-empty body) the response is 200 with a `Set-Cookie` header
exactly when the parsed username and password both equal `admin`. -/
theorem postLogin_spec (jsonLoads : String → Except String Json) (store : Store) (body : String) :
    doPOST jsonLoads store "/login" body = (loginResponse jsonLoads body, store) ∧
    (body = "" → loginResponse jsonLoads body = respMissingCreds) ∧
    (∀ e, body ≠ "" → parseCreds jsonLoads body = .error e →
      (loginResponse jsonLoads body).status = 500) ∧
    (∀ u p, body ≠ "" → parseCreds jsonLoads body = .ok (u, p) →
      (u = some (Json.str "admin") ∧ p = some (Json.str "admin") →
        loginResponse jsonLoads body = respLoginSuccess) ∧
      (¬(u = some (Json.str "admin") ∧ p = some (Json.str "admin")) →
        loginResponse jsonLoads body = respUnauthorized)) ∧
    (body ≠ "" →
      (((loginResponse jsonLoads body).status = 200 ∧
          (loginResponse jsonLoads body).setCookie.isSome = true) ↔
        parseCreds jsonLoads body = .ok (some (Json.str "admin"), some (Json.str "admin")))) := by
  refine ⟨rfl, ?_, ?_, ?_, ?_⟩
  · intro h
    simp [loginResponse, h]
  · intro e hne herr
    simp [loginResponse, hne, herr]
  · intro u p hne hok
    constructor
    · rintro ⟨hu, hp⟩
      subst hu
      subst hp
      simp [loginResponse, hne, hok, isAdminCred]
    · intro hncred
      cases hb : (isAdminCred u && isAdminCred p) with
      | true =>
        rw [Bool.and_eq_true] at hb
        exact absurd ⟨(isAdminCred_iff u).mp hb.1, (isAdminCred_iff p).mp hb.2⟩ hncred
      | false =>
        simp [loginResponse, hne, hok, hb]
  · intro hne
    constructor
    · rintro ⟨h200, hcook⟩
      rcases hpc : parseCreds jsonLoads body with e | ⟨u, p⟩
      · simp [loginResponse, hne, hpc] at h200
      · cases hb : (isAdminCred u && isAdminCred p) with
        | false =>
          simp [loginResponse, hne, hpc, hb, respUnauthorized] at h200
        | true =>
          rw [Bool.and_eq_true] at hb
          rw [(isAdminCred_iff u).mp hb.1, (isAdminCred_iff p).mp hb.2]
    · intro hpc
      simp [loginResponse, hne, hpc, isAdminCred, respLoginSuccess]

/-- A concrete JSON parse function used only to instantiate theorems that
are universally quantified over `jsonLoads`: it parses the empty-object
literal (to the empty JSON object, as `json.loads` does) and rejects
everything else. -/
def wJsonLoads : String → Except String Json := fun s =>
  if s = "\x7b\x7d" then .ok (.obj []) else .error "invalid json"

/-- Witness for C3: the four login outcomes at concrete bodies. -/
theorem postLogin_spec_witness :
    loginResponse wJsonLoads "username=admin&password=admin" = respLoginSuccess ∧
    loginResponse wJsonLoads "username=admin&password=wrong" = respUnauthorized ∧
    loginResponse wJsonLoads "" = respMissingCreds ∧
    (loginResponse wJsonLoads "garbage").status = 500 :=
  ⟨((postLogin_spec wJsonLoads seedStore "username=admin&password=admin").2.2.2.1
      (some (.str "admin")) (some (.str "admin")) (by decide) rfl).1 ⟨rfl, rfl⟩,
   ((postLogin_spec wJsonLoads seedStore "username=admin&password=wrong").2.2.2.1
      (some (.str "admin")) (some (.str "wrong")) (by decide) rfl).2 (by simp),
   (postLogin_spec wJsonLoads seedStore "").2.1 rfl,
   (postLogin_spec wJsonLoads seedStore "garbage").2.2.1 "invalid json" (by decide) rfl⟩

/-- Reduction of `do_GET` on a `/project/...` path to the store lookup of
the last path segment. -/
theorem getProject_red (store : Store) (rest : String) :
    doGET store ("/project/" ++ rest) =
      (match dictLookup store (lastSegment ("/project/" ++ rest)) with
       | some project => ⟨200, none, some project⟩
       | none => respNotFound) := rfl

/-- The record the project-POST branch stores for a given path segment
under this embedding: the body stream is already exhausted, so the record
always carries the defaulted display name and enabled flag. -/
def storedRec (k : String) : Json :=
  .obj [("name", .str k), ("displayname", .str (pyTitle k)), ("enabled", .bool true)]

/-- The project-POST branch always succeeds (never 500s) provided the JSON
parser parses the empty-object literal to an empty JSON object, and it
stores the defaulted record. -/
theorem projectPostStored_ok (jsonLoads : String → Except String Json) (k body : String)
    (hjson : jsonLoads "\x7b\x7d" = .ok (.obj [])) :
    projectPostStored jsonLoads k body = .ok (storedRec k) := by
  by_cases hb : body = ""
  · subst hb
    simp [projectPostStored, hjson, lookupKvs, storedRec]
  · simp [projectPostStored, hb, defaultProjectData, lookupKvs, storedRec]

/-- C5: create-then-read consistency. For every project path and every
request body, `POST /project/{name}` answers 200 with exactly the record it
stores, and an immediately following `GET /project/{name}` answers 200 with
that same record. -/
theorem postProject_then_get (jsonLoads : String → Except String Json) (store : Store)
    (rest body : String) (hjson : jsonLoads "\x7b\x7d" = .ok (.obj [])) :
    ∃ rec : Json,
      (doPOST jsonLoads store ("/project/" ++ rest) body).1 = ⟨200, none, some rec⟩ ∧
      dictLookup (doPOST jsonLoads store ("/project/" ++ rest) body).2
        (lastSegment ("/project/" ++ rest)) = some rec ∧
      doGET (doPOST jsonLoads store ("/project/" ++ rest) body).2 ("/project/" ++ rest) =
        ⟨200, none, some rec⟩ := by
  have hne : ("/project/" ++ rest) ≠ "/login" := project_path_ne_login rest
  have hsw : strStartsWith ("/project/" ++ rest) "/project/" = true := rfl
  have hpost : doPOST jsonLoads store ("/project/" ++ rest) body =
      (⟨200, none, some (storedRec (lastSegment ("/project/" ++ rest)))⟩,
        dictInsert store (lastSegment ("/project/" ++ rest))
          (storedRec (lastSegment ("/project/" ++ rest)))) := by
    unfold doPOST
    rw [if_neg hne, if_pos hsw]
    show (match projectPostStored jsonLoads (lastSegment ("/project/" ++ rest)) body with
      | Except.ok stored => ((⟨200, none, some stored⟩ : Response),
          dictInsert store (lastSegment ("/project/" ++ rest)) stored)
      | Except.error e => (⟨500, none, some (jsonErr e)⟩, store)) = _
    rw [projectPostStored_ok jsonLoads (lastSegment ("/project/" ++ rest)) body hjson]
  refine ⟨storedRec (lastSegment ("/project/" ++ rest)), ?_, ?_, ?_⟩
  · rw [hpost]
  · rw [hpost]
    exact dictLookup_insert_self store _ _
  · rw [hpost, getProject_red, dictLookup_insert_self]

/-- C6: `DELETE /project/{name}` removes the entry and answers
`200 {"status":"deleted"}` when the entry is present and answers 404 when
absent; in both cases the entry keyed by the last path segment is absent
afterwards, so an immediately following `GET /project/{name}` answers 404.
The `Nodup` hypothesis states that the store's keys are distinct, which
holds for every dict-shaped store. -/
theorem deleteProject_spec (store : Store) (rest : String)
    (hnd : (store.map Prod.fst).Nodup) :
    ((dictLookup store (lastSegment ("/project/" ++ rest))).isSome = true →
      doDELETE store ("/project/" ++ rest) =
        (respDeleted, dictErase store (lastSegment ("/project/" ++ rest)))) ∧
    ((dictLookup store (lastSegment ("/project/" ++ rest))).isSome = false →
      doDELETE store ("/project/" ++ rest) = (respNotFound, store)) ∧
    dictLookup (doDELETE store ("/project/" ++ rest)).2 (lastSegment ("/project/" ++ rest)) = none ∧
    doGET (doDELETE store ("/project/" ++ rest)).2 ("/project/" ++ rest) = respNotFound := by
  have hsw : strStartsWith ("/project/" ++ rest) "/project/" = true := rfl
  by_cases hs : (dictLookup store (lastSegment ("/project/" ++ rest))).isSome = true
  · have hdel : doDELETE store ("/project/" ++ rest) =
        (respDeleted, dictErase store (lastSegment ("/project/" ++ rest))) := by
      unfold doDELETE
      rw [if_pos hsw]
      show (if (dictLookup store (lastSegment ("/project/" ++ rest))).isSome = true then
          (respDeleted, dictErase store (lastSegment ("/project/" ++ rest)))
        else (respNotFound, store)) = _
      rw [if_pos hs]
    have herased : dictLookup (dictErase store (lastSegment ("/project/" ++ rest)))
        (lastSegment ("/project/" ++ rest)) = none :=
      dictLookup_erase_self store (lastSegment ("/project/" ++ rest)) hnd
    refine ⟨fun _ => hdel, fun hf => absurd hs (by rw [hf]; decide), ?_, ?_⟩
    · rw [hdel]
      exact herased
    · rw [hdel, getProject_red, herased]
  · have hs2 : (dictLookup store (lastSegment ("/project/" ++ rest))).isSome = false :=
      Bool.not_eq_true _ ▸ (by simpa using hs)
    have hnone : dictLookup store (lastSegment ("/project/" ++ rest)) = none := by
      cases h : dictLookup store (lastSegment ("/project/" ++ rest)) with
      | none => rfl
      | some v => rw [h] at hs2; simp at hs2
    have hdel : doDELETE store ("/project/" ++ rest) = (respNotFound, store) := by
      unfold doDELETE
      rw [if_pos hsw]
      show (if (dictLookup store (lastSegment ("/project/" ++ rest))).isSome = true then
          (respDeleted, dictErase store (lastSegment ("/project/" ++ rest)))
        else (respNotFound, store)) = _
      rw [if_neg hs]
    refine ⟨fun ht => absurd ht hs, fun _ => hdel, ?_, ?_⟩
    · rw [hdel]
      exact hnone
    · rw [hdel, getProject_red, hnone]

/-- Witness for C5 at a concrete project creation on the seed store. -/
theorem postProject_then_get_witness :
    ∃ rec : Json,
      (doPOST wJsonLoads seedStore ("/project/" ++ "foo") "").1 = ⟨200, none, some rec⟩ ∧
      dictLookup (doPOST wJsonLoads seedStore ("/project/" ++ "foo") "").2
        (lastSegment ("/project/" ++ "foo")) = some rec ∧
      doGET (doPOST wJsonLoads seedStore ("/project/" ++ "foo") "").2 ("/project/" ++ "foo") =
        ⟨200, none, some rec⟩ :=
  postProject_then_get wJsonLoads seedStore "foo" "" rfl

/-- Witness for C6: deleting a seeded project then reading it, and deleting
an absent project. -/
theorem deleteProject_spec_witness :
    doGET (doDELETE seedStore ("/project/" ++ "hydra")).2 ("/project/" ++ "hydra") = respNotFound ∧
    doDELETE seedStore ("/project/" ++ "hydra") =
      (respDeleted, dictErase seedStore (lastSegment ("/project/" ++ "hydra"))) ∧
    doDELETE seedStore ("/project/" ++ "nope") = (respNotFound, seedStore) :=
  ⟨(deleteProject_spec seedStore "hydra" (by decide)).2.2.2,
   (deleteProject_spec seedStore "hydra" (by decide)).1 rfl,
   (deleteProject_spec seedStore "nope" (by decide)).2.1 rfl⟩

/-- The C9 invariant: every record in the store carries a `name` field
equal to the key it is stored under. -/
def storeInv (s : Store) : Prop :=
  ∀ p ∈ s, jsonGet p.2 "name" = some (.str p.1)

/-- Inserting a value whose `name` field matches the key preserves the
invariant. -/
theorem storeInv_insert : ∀ (s : Store) (k : String) (v : Json),
    storeInv s → jsonGet v "name" = some (.str k) → storeInv (dictInsert s k v)
  | [], k, v, _, hv => by
    intro p hp
    simp [dictInsert] at hp
    subst hp
    exact hv
  | (k', w) :: rest, k, v, hinv, hv => by
    intro p hp
    by_cases hk : k' = k
    · rw [show dictInsert ((k', w) :: rest) k v = (k, v) :: rest from by
        show (if k' = k then (k, v) :: rest else (k', w) :: dictInsert rest k v) = _
        rw [if_pos hk]] at hp
      rcases List.mem_cons.mp hp with h | h
      · subst h
        exact hv
      · exact hinv p (List.mem_cons_of_mem _ h)
    · rw [show dictInsert ((k', w) :: rest) k v = (k', w) :: dictInsert rest k v from by
        show (if k' = k then (k, v) :: rest else (k', w) :: dictInsert rest k v) = _
        rw [if_neg hk]] at hp
      rcases List.mem_cons.mp hp with h | h
      · subst h
        exact hinv _ (List.mem_cons_self _ _)
      · exact storeInv_insert rest k v
          (fun q hq => hinv q (List.mem_cons_of_mem _ hq)) hv p h

/-- Deleting an entry preserves the invariant. -/
theorem storeInv_erase : ∀ (s : Store) (k : String), storeInv s → storeInv (dictErase s k)
  | [], k, _ => by
    intro p hp
    simp [dictErase] at hp
  | (k', w) :: rest, k, hinv => by
    intro p hp
    by_cases hk : k' = k
    · rw [show dictErase ((k', w) :: rest) k = rest from by
        show (if k' = k then rest else (k', w) :: dictErase rest k) = _
        rw [if_pos hk]] at hp
      exact hinv p (List.mem_cons_of_mem _ hp)
    · rw [show dictErase ((k', w) :: rest) k = (k', w) :: dictErase rest k from by
        show (if k' = k then rest else (k', w) :: dictErase rest k) = _
        rw [if_neg hk]] at hp
      rcases List.mem_cons.mp hp with h | h
      · subst h
        exact hinv _ (List.mem_cons_self _ _)
      · exact storeInv_erase rest k
          (fun q hq => hinv q (List.mem_cons_of_mem _ hq)) p h

/-- The stored-record match of the project-POST branch, when it succeeds,
yields a record whose `name` field is the path segment. -/
theorem matchStored_name (k : String) (t : Json) (stored : Json)
    (h : (match t with
      | Json.obj kvs => Except.ok (Json.obj [("name", .str k),
          ("displayname", (lookupKvs kvs "displayname").getD (.str (pyTitle k))),
          ("enabled", (lookupKvs kvs "enabled").getD (.bool true))])
      | j => (Except.error (attrErrMsg j) : Except String Json)) = .ok stored) :
    jsonGet stored "name" = some (.str k) := by
  cases t with
  | obj kvs =>
    simp only [Except.ok.injEq] at h
    rw [← h]
    rfl
  | null => exact Except.noConfusion h
  | bool b => exact Except.noConfusion h
  | num n => exact Except.noConfusion h
  | str s => exact Except.noConfusion h
  | arr xs => exact Except.noConfusion h

/-- Whatever the project-POST branch stores has its `name` field equal to
the path segment, for every JSON parse function and body. -/
theorem projectPostStored_name (jsonLoads : String → Except String Json)
    (k body : String) (stored : Json)
    (h : projectPostStored jsonLoads k body = .ok stored) :
    jsonGet stored "name" = some (.str k) := by
  have h2 : (match (if (if body = "" then ("\x7b\x7d" : String) else "") = "" then
        defaultProjectData k
      else
        match jsonLoads (if body = "" then ("\x7b\x7d" : String) else "") with
        | .ok j => j
        | .error _ => defaultProjectData k) with
    | Json.obj kvs => Except.ok (Json.obj [("name", .str k),
        ("displayname", (lookupKvs kvs "displayname").getD (.str (pyTitle k))),
        ("enabled", (lookupKvs kvs "enabled").getD (.bool true))])
    | j => (Except.error (attrErrMsg j) : Except String Json)) = .ok stored := h
  exact matchStored_name k _ stored h2

/-- One request of any method preserves the C9 invariant. -/
theorem storeInv_step (jsonLoads : String → Except String Json) (s : Store) (r : Request)
    (hinv : storeInv s) : storeInv (stepStore jsonLoads s r) := by
  rcases r with ⟨m, path, body⟩
  cases m with
  | get => exact hinv
  | put => exact hinv
  | delete =>
    show storeInv (doDELETE s path).2
    by_cases hsw : strStartsWith path "/project/" = true
    · have hred : doDELETE s path =
          (if (dictLookup s (lastSegment path)).isSome = true then
            (respDeleted, dictErase s (lastSegment path))
          else (respNotFound, s)) := by
        unfold doDELETE
        rw [if_pos hsw]
      rw [hred]
      by_cases hs : (dictLookup s (lastSegment path)).isSome = true
      · rw [if_pos hs]
        exact storeInv_erase s _ hinv
      · rw [if_neg hs]
        exact hinv
    · have hred : doDELETE s path = (respDeleted, s) := by
        unfold doDELETE
        rw [if_neg hsw]
      rw [hred]
      exact hinv
  | post =>
    show storeInv (doPOST jsonLoads s path body).2
    by_cases hlg : path = "/login"
    · have hred : doPOST jsonLoads s path body = (loginResponse jsonLoads body, s) := by
        unfold doPOST
        rw [if_pos hlg]
      rw [hred]
      exact hinv
    · by_cases hsw : strStartsWith path "/project/" = true
      · rcases hps : projectPostStored jsonLoads (lastSegment path) body with e | stored
        · have hred : doPOST jsonLoads s path body = (⟨500, none, some (jsonErr e)⟩, s) := by
            unfold doPOST
            rw [if_neg hlg, if_pos hsw]
            show (match projectPostStored jsonLoads (lastSegment path) body with
              | Except.ok stored => ((⟨200, none, some stored⟩ : Response),
                  dictInsert s (lastSegment path) stored)
              | Except.error e => (⟨500, none, some (jsonErr e)⟩, s)) = _
            rw [hps]
          rw [hred]
          exact hinv
        · have hred : doPOST jsonLoads s path body =
              (⟨200, none, some stored⟩, dictInsert s (lastSegment path) stored) := by
            unfold doPOST
            rw [if_neg hlg, if_pos hsw]
            show (match projectPostStored jsonLoads (lastSegment path) body with
              | Except.ok stored => ((⟨200, none, some stored⟩ : Response),
                  dictInsert s (lastSegment path) stored)
              | Except.error e => (⟨500, none, some (jsonErr e)⟩, s)) = _
            rw [hps]
          rw [hred]
          exact storeInv_insert s (lastSegment path) stored hinv
            (projectPostStored_name jsonLoads (lastSegment path) body stored hps)
      · have hred : doPOST jsonLoads s path body =
            (⟨200, none, some (.obj [("status", .str "created")])⟩, s) := by
          unfold doPOST
          rw [if_neg hlg, if_neg hsw]
        rw [hred]
        exact hinv

/-- C9: in every state of `projects_storage` reachable from the seed
state by any sequence of GET, POST, PUT and DELETE requests, every stored
record's `name` field equals its key — in particular a `name` supplied in a
POST body is ignored in favour of the path segment, since the theorem holds
for every `jsonLoads` and every body. -/
theorem projects_name_key_invariant (jsonLoads : String → Except String Json)
    (reqs : List Request) (p : String × Json)
    (hp : p ∈ reqs.foldl (stepStore jsonLoads) seedStore) :
    jsonGet p.2 "name" = some (.str p.1) := by
  have hseed : storeInv seedStore := by
    intro q hq
    simp [seedStore] at hq
    rcases hq with h | h <;> subst h <;> rfl
  have hfold : ∀ (rs : List Request) (s : Store), storeInv s →
      storeInv (rs.foldl (stepStore jsonLoads) s) := by
    intro rs
    induction rs with
    | nil => exact fun s hs => hs
    | cons r rs ih => exact fun s hs => ih _ (storeInv_step jsonLoads s r hs)
  exact hfold reqs seedStore hseed p hp

/-- Witness for C9: the record created by a concrete POST on the seed
store satisfies the invariant. -/
theorem projects_name_key_invariant_witness :
    jsonGet (storedRec "foo") "name" = some (.str "foo") :=
  projects_name_key_invariant wJsonLoads [⟨.post, "/project/" ++ "foo", "x"⟩]
    ("foo", storedRec "foo")
    (List.Mem.tail _ (List.Mem.tail _ (List.Mem.head _)))

/-- C10: `POST /project/{name}` and `DELETE /project/{name}` change at
most the store entry keyed `{name}` (every other key reads the same
afterwards), and GET and PUT requests never change the store at all. -/
theorem project_frame_spec (jsonLoads : String → Except String Json) (store : Store)
    (name body : String) (hns : strContains name "/" = false) :
    (∀ k, k ≠ name →
      dictLookup (doPOST jsonLoads store ("/project/" ++ name) body).2 k = dictLookup store k) ∧
    (∀ k, k ≠ name →
      dictLookup (doDELETE store ("/project/" ++ name)).2 k = dictLookup store k) ∧
    (∀ (s2 : Store) (p b : String), (applyRequest jsonLoads s2 ⟨.get, p, b⟩).2 = s2) ∧
    (∀ (s2 : Store) (p b : String), (applyRequest jsonLoads s2 ⟨.put, p, b⟩).2 = s2) := by
  have hkey : lastSegment ("/project/" ++ name) = name := lastSegment_project name hns
  have hne : ("/project/" ++ name) ≠ "/login" := project_path_ne_login name
  have hsw : strStartsWith ("/project/" ++ name) "/project/" = true := rfl
  refine ⟨?_, ?_, fun s2 p b => rfl, fun s2 p b => rfl⟩
  · intro k hk
    rcases hps : projectPostStored jsonLoads (lastSegment ("/project/" ++ name)) body
      with e | stored
    · have hred : doPOST jsonLoads store ("/project/" ++ name) body =
          (⟨500, none, some (jsonErr e)⟩, store) := by
        unfold doPOST
        rw [if_neg hne, if_pos hsw]
        show (match projectPostStored jsonLoads (lastSegment ("/project/" ++ name)) body with
          | Except.ok stored => ((⟨200, none, some stored⟩ : Response),
              dictInsert store (lastSegment ("/project/" ++ name)) stored)
          | Except.error e => (⟨500, none, some (jsonErr e)⟩, store)) = _
        rw [hps]
      rw [hred]
    · have hred : doPOST jsonLoads store ("/project/" ++ name) body =
          (⟨200, none, some stored⟩,
            dictInsert store (lastSegment ("/project/" ++ name)) stored) := by
        unfold doPOST
        rw [if_neg hne, if_pos hsw]
        show (match projectPostStored jsonLoads (lastSegment ("/project/" ++ name)) body with
          | Except.ok stored => ((⟨200, none, some stored⟩ : Response),
              dictInsert store (lastSegment ("/project/" ++ name)) stored)
          | Except.error e => (⟨500, none, some (jsonErr e)⟩, store)) = _
        rw [hps]
      rw [hred, hkey]
      exact dictLookup_insert_ne store name k stored hk
  · intro k hk
    have hred : doDELETE store ("/project/" ++ name) =
        (if (dictLookup store (lastSegment ("/project/" ++ name))).isSome = true then
          (respDeleted, dictErase store (lastSegment ("/project/" ++ name)))
        else (respNotFound, store)) := by
      unfold doDELETE
      rw [if_pos hsw]
    rw [hred]
    by_cases hs : (dictLookup store (lastSegment ("/project/" ++ name))).isSome = true
    · rw [if_pos hs, hkey]
      exact dictLookup_erase_ne store name k hk
    · rw [if_neg hs]

/-- Witness for C10 at concrete requests against the seed store. -/
theorem project_frame_spec_witness :
    dictLookup (doPOST wJsonLoads seedStore ("/project/" ++ "foo") "").2 "nixpkgs" =
      dictLookup seedStore "nixpkgs" ∧
    dictLookup (doDELETE seedStore ("/project/" ++ "hydra")).2 "nixpkgs" =
      dictLookup seedStore "nixpkgs" ∧
    (applyRequest wJsonLoads seedStore ⟨.get, "/", ""⟩).2 = seedStore ∧
    (applyRequest wJsonLoads seedStore ⟨.put, "/project/hydra", ""⟩).2 = seedStore :=
  ⟨(project_frame_spec wJsonLoads seedStore "foo" "" (by decide)).1 "nixpkgs" (by decide),
   (project_frame_spec wJsonLoads seedStore "hydra" "" (by decide)).2.1 "nixpkgs" (by decide),
   (project_frame_spec wJsonLoads seedStore "x" "" (by decide)).2.2.1 seedStore "/" "",
   (project_frame_spec wJsonLoads seedStore "x" "" (by decide)).2.2.2 seedStore "/project/hydra" ""⟩
